import Mathlib

/-!
Shallow embedding of the aggregation and segmentation engine of
`src/ve_app.py` (KingFoodMart dashboard).

Modelling conventions:
* Calendar dates are modelled as integers (`Date := ℤ`, an ordinal day
  number); the strict `YYYY-MM-DD` parse of the Python code is modelled by
  an `Option Date` field: `none` means the entry has no `date` key or its
  date string does not parse, `some d` means the parse succeeded.
* A raw stock-movement entry is either not a dict (`RawEntry.nonDict`) or a
  dict with an optional date and optional numeric `stock_decreased` /
  `stock_increased` fields (missing field ↦ `none`, read back as `0` by both
  the Mongo pipeline's `$ifNull` and Python's `.get(_, 0)`).
* Numbers are exact rationals `ℚ`; Python's `round(x, 0)` and Mongo's
  `$round` (both round-half-to-even) are modelled by `roundHalfEven`.
* `pandas` quantiles use the default linear interpolation, modelled exactly
  over `ℚ` by `quantile`; `groupby` sorts its keys, and the code-point order
  of the Vietnamese tier labels is Cao < Không xác định < Thấp < Trung bình,
  modelled by the fixed list `segmentKeysSorted`.
-/

abbrev Date := Int

/-- A raw stock-movement entry as found in a product's `stock_history`:
either not a dict at all, or a dict with an optionally-parsable date and
optional `stock_decreased` / `stock_increased` numeric fields. -/
inductive RawEntry where
  | nonDict : RawEntry
  | dict : Option Date → Option ℚ → Option ℚ → RawEntry
deriving DecidableEq, Repr

/-- The date of an entry, if it is a dict whose date string parses. -/
def entryDate : RawEntry → Option Date
  | .nonDict => none
  | .dict d _ _ => d

/-- A raw product record as it comes out of the document store after the
`$match` stage (price already known to be numeric), before the `$project`
and `$addFields` stages. -/
structure RawProduct where
  price : ℚ
  stock_history : List RawEntry
deriving DecidableEq, Repr

/-- Round half to even (banker's rounding), the behaviour of both Python's
`round(x, 0)` and MongoDB's `$round: [x, 0]`. -/
def roundHalfEven (x : ℚ) : ℤ :=
  if x - (⌊x⌋ : ℚ) < 1/2 then ⌊x⌋
  else if 1/2 < x - (⌊x⌋ : ℚ) then ⌊x⌋ + 1
  else if ⌊x⌋ % 2 = 0 then ⌊x⌋ else ⌊x⌋ + 1

/-- Contribution of one entry to the Mongo pipeline's `total_sold`:
`{$max: [{$ifNull: ["$$entry.stock_decreased", 0]}, 0]}` (a field path on a
non-document is missing, hence `$ifNull` yields 0). -/
def entryContribSold : RawEntry → ℚ
  | .nonDict => 0
  | .dict _ sd _ => max (sd.getD 0) 0

/-- Contribution of one entry to the Mongo pipeline's `total_stock_increased`. -/
def entryContribInc : RawEntry → ℚ
  | .nonDict => 0
  | .dict _ _ si => max (si.getD 0) 0

/-- The `$addFields` sum for `total_sold` over the (already `$slice`-capped)
`stock_history`, from `load_data_optimized`'s aggregation pipeline. -/
def pipelineTotalSold (stock_history : List RawEntry) : ℚ :=
  (stock_history.map entryContribSold).sum

/-- The `$addFields` sum for `total_stock_increased`. -/
def pipelineTotalInc (stock_history : List RawEntry) : ℚ :=
  (stock_history.map entryContribInc).sum

/-- A product row as built by the per-product loop body of
`load_data_optimized` (before `apply_clustering_improved` adds the
`quantity_sold` / `stock_remaining` / `segment` columns). String passthrough
columns (`id`, `name`, `category`, `promotion`, `source_file`) carry no
claim-relevant content and are omitted. -/
structure LoadedRow where
  price : ℚ
  total_sold : ℚ
  revenue : ℚ
  total_stock_increased : ℚ
  stock_revenue : ℚ
  stock_history : List RawEntry
deriving DecidableEq, Repr

/-- One iteration of the cursor loop in `load_data_optimized`: the pipeline
slices `stock_history` to 100 entries and computes the lifetime sums over
that sliced list; Python then floors the price at 1000, floors the totals at
0, rounds, and stores only the first 50 entries of the fetched list.
The date-parsing loop over `stock_history` only feeds the global
`all_dates` set (for the date-picker bounds); it does not remove entries. -/
def load_row (p : RawProduct) : LoadedRow :=
  let fetched := p.stock_history.take 100
  let priceI : ℤ := max 1000 (roundHalfEven p.price)
  let total_sold : ℚ := max 0 (pipelineTotalSold fetched)
  let total_stock_increased : ℚ := max 0 (pipelineTotalInc fetched)
  { price := (priceI : ℚ)
  , total_sold := (roundHalfEven total_sold : ℚ)
  , revenue := (roundHalfEven ((priceI : ℚ) * total_sold) : ℚ)
  , total_stock_increased := (roundHalfEven total_stock_increased : ℚ)
  , stock_revenue := (roundHalfEven ((priceI : ℚ) * total_stock_increased) : ℚ)
  , stock_history := fetched.take 50 }

/-- The row-building part of `load_data_optimized` over the whole fetched
collection (DataFrame construction and min/max-date bookkeeping omitted). -/
def load_data_optimized (ps : List RawProduct) : List LoadedRow :=
  ps.map load_row

/-- Price tier. Vietnamese labels of the source: `undef` = "Không xác định",
`low` = "Thấp", `medium` = "Trung bình", `high` = "Cao". -/
inductive Segment where
  | undef : Segment
  | low : Segment
  | medium : Segment
  | high : Segment
deriving DecidableEq, Repr

/-- A full product row after `apply_clustering_improved` has added the
`quantity_sold`, `stock_remaining` and `segment` columns. -/
structure Row where
  price : ℚ
  total_sold : ℚ
  revenue : ℚ
  total_stock_increased : ℚ
  stock_revenue : ℚ
  stock_history : List RawEntry
  quantity_sold : ℚ
  stock_remaining : ℚ
  segment : Segment
deriving DecidableEq, Repr

/-- Insert into a sorted list, keeping it sorted (ascending). -/
def insertSorted (x : ℚ) : List ℚ → List ℚ
  | [] => [x]
  | y :: ys => if x ≤ y then x :: y :: ys else y :: insertSorted x ys

/-- Insertion sort, ascending. -/
def sortAsc (l : List ℚ) : List ℚ :=
  l.foldr insertSorted []

/-- The `pandas` `Series.quantile(q)` with the default linear interpolation:
with the values sorted ascending as `s` of length `m`, let `h = q*(m-1)`,
`i = ⌊h⌋`; the result is `s[i] + (h-i) * (s[i+1] - s[i])`. -/
def quantile (q : ℚ) (xs : List ℚ) : ℚ :=
  let s := sortAsc xs
  let m := s.length
  let h : ℚ := q * ((m : ℚ) - 1)
  let i : Nat := (⌊h⌋).toNat
  let g : ℚ := h - (i : ℚ)
  s.getD i 0 + g * (s.getD (i + 1) 0 - s.getD i 0)

/-- Number of distinct values, `Series.nunique()`. -/
def nuniquePrices (l : List ℚ) : Nat :=
  l.dedup.length

/-- The first (load-time) classification pass `apply_clustering_improved`:
copies the frame, sets `quantity_sold := total_sold` and
`stock_remaining := total_stock_increased`, and assigns a tier from the
0.33 / 0.67 quantiles of the price column when there is more than one row
and more than one distinct price, otherwise tags every row "Trung bình".
The `pd.isna(price)` guard of the inner `categorize_price` is dead here
because every loaded price is numeric, and the `except` fallback cannot
trigger in this total model. -/
def apply_clustering_improved (rows : List LoadedRow) : List Row :=
  match rows with
  | [] => []
  | _ :: _ =>
    let prices := rows.map (fun r => r.price)
    let segOf : ℚ → Segment :=
      if 1 < rows.length ∧ 1 < nuniquePrices prices then
        let price_25th := quantile (33/100) prices
        let price_75th := quantile (67/100) prices
        fun price =>
          if price ≤ price_25th then .low
          else if price ≤ price_75th then .medium
          else .high
      else fun _ => .medium
    rows.map fun r =>
      { price := r.price
      , total_sold := r.total_sold
      , revenue := r.revenue
      , total_stock_increased := r.total_stock_increased
      , stock_revenue := r.stock_revenue
      , stock_history := r.stock_history
      , quantity_sold := r.total_sold
      , stock_remaining := r.total_stock_increased
      , segment := segOf r.price }

/-- The per-entry test of `filter_stock_history`: keep an entry iff it is a
dict with a `date` key that parses strictly and lies in `[start_date, end_date]`. -/
def dateSelected (start_date end_date : Date) (e : RawEntry) : Bool :=
  match entryDate e with
  | none => false
  | some d => decide (start_date ≤ d) && decide (d ≤ end_date)

/-- The inner `filter_stock_history` of `filter_by_date_range_optimized`. -/
def filter_stock_history (start_date end_date : Date) (stock_history : List RawEntry) : List RawEntry :=
  stock_history.filter (dateSelected start_date end_date)

/-- Contribution of one entry to `recalculate_metrics`' `total_sold`:
`max(0, float(entry.get('stock_decreased', 0)))` for dicts, skipped otherwise. -/
def pyEntrySold : RawEntry → ℚ
  | .nonDict => 0
  | .dict _ sd _ => max 0 (sd.getD 0)

/-- Contribution of one entry to `recalculate_metrics`' `total_stock_increased`. -/
def pyEntryInc : RawEntry → ℚ
  | .nonDict => 0
  | .dict _ _ si => max 0 (si.getD 0)

/-- The four recomputed columns returned by `recalculate_metrics`. -/
structure Metrics where
  quantity_sold : ℚ
  stock_remaining : ℚ
  revenue : ℚ
  stock_revenue : ℚ
deriving DecidableEq, Repr

/-- The inner `recalculate_metrics` of `filter_by_date_range_optimized`,
applied to one row's price and (already filtered) `stock_history`. -/
def recalculate_metrics (price : ℚ) (stock_history : List RawEntry) : Metrics :=
  let total_sold := (stock_history.map pyEntrySold).sum
  let total_stock_increased := (stock_history.map pyEntryInc).sum
  { quantity_sold := total_sold
  , stock_remaining := total_stock_increased
  , revenue := price * total_sold
  , stock_revenue := price * total_stock_increased }

/-- The window-recomputation engine `filter_by_date_range_optimized`: an
empty frame is returned unchanged; otherwise each row's `stock_history` is
filtered to the window and `quantity_sold`, `stock_remaining`, `revenue`,
`stock_revenue` are recomputed from the filtered entries only. The `except`
fallback cannot trigger in this total model. -/
def filter_by_date_range_optimized (df : List Row) (start_date end_date : Date) : List Row :=
  match df with
  | [] => []
  | _ :: _ =>
    df.map fun r =>
      let fh := filter_stock_history start_date end_date r.stock_history
      let m := recalculate_metrics r.price fh
      { r with stock_history := fh
             , quantity_sold := m.quantity_sold
             , stock_remaining := m.stock_remaining
             , revenue := m.revenue
             , stock_revenue := m.stock_revenue }

/-- Minimum of a price column (`Series.min()`), 0 on an empty list (the
empty case is unreachable where this is used). -/
def listMin : List ℚ → ℚ
  | [] => 0
  | x :: xs => xs.foldl min x

/-- Maximum of a price column (`Series.max()`). -/
def listMax : List ℚ → ℚ
  | [] => 0
  | x :: xs => xs.foldl max x

/-- The tier decision of `categorize_price_segment` applied to a column of
possibly-missing prices (a `none` models a NaN price; `pandas` quantile,
min and max skip NaN). Mirrors the source branch for branch:
all-NaN-or-empty ↦ all "Không xác định"; distinct 0.25 / 0.75 quantiles ↦
three-way split; equal quantiles but distinct min/max ↦ two-way split at the
midpoint (a NaN price fails `x < mid` and is tagged "Cao"); equal min/max ↦
all "Trung bình". -/
def classifyPrices (prices : List (Option ℚ)) : List Segment :=
  if prices.all Option.isNone then
    prices.map fun _ => .undef
  else
    let vals := prices.filterMap id
    let price_25th := quantile (1/4) vals
    let price_75th := quantile (3/4) vals
    if price_25th = price_75th then
      let price_min := listMin vals
      let price_max := listMax vals
      if price_min = price_max then
        prices.map fun _ => .medium
      else
        let price_mid := (price_min + price_max) / 2
        prices.map fun p =>
          match p with
          | none => .high
          | some x => if x < price_mid then .low else .high
    else
      prices.map fun p =>
        match p with
        | none => .undef
        | some x =>
          if x ≤ price_25th then .low
          else if x ≤ price_75th then .medium
          else .high

/-- Write a list of segments back into the `segment` column. -/
def setSegments : List Row → List Segment → List Row
  | [], _ => []
  | r :: rs, [] => r :: rs
  | r :: rs, s :: ss => { r with segment := s } :: setSegments rs ss

/-- The second (superseding) classification pass `categorize_price_segment`,
run at module level on the date-filtered frame: reassigns the `segment`
column from the 0.25 / 0.75 quantiles of the current price column. Loaded
prices are always numeric, hence the `some` wrapping. -/
def categorize_price_segment (df : List Row) : List Row :=
  setSegments df (classifyPrices (df.map fun r => some r.price))

/-- The explicit display-mode flag ("Bán hàng" = sales, "Tồn kho" = inventory). -/
inductive DisplayMode where
  | sales : DisplayMode
  | inventory : DisplayMode
deriving DecidableEq, Repr

/-- The revenue-like column selected by the display mode (`revenue` in sales
mode, `stock_revenue` renamed to `revenue` in inventory mode). -/
def revField : DisplayMode → Row → ℚ
  | .sales, r => r.revenue
  | .inventory, r => r.stock_revenue

/-- The quantity-like column selected by the display mode. -/
def qtyField : DisplayMode → Row → ℚ
  | .sales, r => r.quantity_sold
  | .inventory, r => r.stock_remaining

/-- One `groupby('segment')` group sum. -/
def groupSum (f : Row → ℚ) (s : Segment) (rows : List Row) : ℚ :=
  ((rows.filter fun r => r.segment == s).map f).sum

/-- All possible `segment` keys in `pandas` `groupby` order (sorted by the
code points of the Vietnamese labels: Cao < Không xác định < Thấp < Trung bình). -/
def segmentKeysSorted : List Segment :=
  [.high, .undef, .low, .medium]

/-- The distinct segment values present in the frame, in `groupby` key order. -/
def presentSegments (rows : List Row) : List Segment :=
  segmentKeysSorted.filter fun s => rows.any fun r => r.segment == s

/-- One output row of the segment rollup. -/
structure SegmentStats where
  segment : Segment
  revenue : ℚ
  quantity_sold : ℚ
  revenue_pct : ℚ
  quantity_pct : ℚ
deriving DecidableEq, Repr

/-- The second (superseding) `calculate_segment_analysis(df, display_mode)`:
an empty frame yields an empty result; otherwise one row per segment value
present, with mode-selected sums and percentages of the grand totals
(percentage 0 when the corresponding total is not positive). No rows are
synthesized for absent tiers and no reordering beyond the `groupby` key sort
is applied. -/
def calculate_segment_analysis (df : List Row) (display_mode : DisplayMode) : List SegmentStats :=
  match df with
  | [] => []
  | _ :: _ =>
    let segs := presentSegments df
    let total_revenue := (segs.map fun s => groupSum (revField display_mode) s df).sum
    let total_quantity := (segs.map fun s => groupSum (qtyField display_mode) s df).sum
    segs.map fun s =>
      { segment := s
      , revenue := groupSum (revField display_mode) s df
      , quantity_sold := groupSum (qtyField display_mode) s df
      , revenue_pct :=
          if 0 < total_revenue then groupSum (revField display_mode) s df / total_revenue * 100 else 0
      , quantity_pct :=
          if 0 < total_quantity then groupSum (qtyField display_mode) s df / total_quantity * 100 else 0 }

/-- Whether an entry's parsed date (if any) lies inside `[a, b]`; entries
with no parsable date impose no constraint. `true` for every entry of a
history means the window covers the full movement history. -/
def insideWindow (a b : Date) (e : RawEntry) : Bool :=
  match entryDate e with
  | none => true
  | some d => decide (a ≤ d) && decide (d ≤ b)

/-- Hypothesis bundle for the amended full-window claim: the entry is a dict
with a parsed date inside `[a, b]`, and its stock fields (defaulted to 0)
are integers. -/
def entryOKB (a b : Date) : RawEntry → Bool
  | .nonDict => false
  | .dict none _ _ => false
  | .dict (some d) sd si =>
    decide (a ≤ d) && decide (d ≤ b) &&
    decide ((sd.getD 0).den = 1) && decide ((si.getD 0).den = 1)

/-- Grand total of the mode-selected revenue column over a frame (the
quantity the rollup's percentages are taken of). -/
def totalRevenueOf (display_mode : DisplayMode) (rows : List Row) : ℚ :=
  (rows.map (revField display_mode)).sum

/-- Grand total of the mode-selected quantity column over a frame. -/
def totalQuantityOf (display_mode : DisplayMode) (rows : List Row) : ℚ :=
  (rows.map (qtyField display_mode)).sum

/-- A loaded frame of five products priced 1000..5000 with empty movement
histories, used to exhibit the divergence between the two classification
passes. -/
def fiveLoaded : List LoadedRow :=
  [{ price := 1000, total_sold := 0, revenue := 0, total_stock_increased := 0
   , stock_revenue := 0, stock_history := [] },
   { price := 2000, total_sold := 0, revenue := 0, total_stock_increased := 0
   , stock_revenue := 0, stock_history := [] },
   { price := 3000, total_sold := 0, revenue := 0, total_stock_increased := 0
   , stock_revenue := 0, stock_history := [] },
   { price := 4000, total_sold := 0, revenue := 0, total_stock_increased := 0
   , stock_revenue := 0, stock_history := [] },
   { price := 5000, total_sold := 0, revenue := 0, total_stock_increased := 0
   , stock_revenue := 0, stock_history := [] }]

/-- A raw product with one valid-dated entry (sold 5 on day 0) and one entry
whose date does not parse (sold 10): the malformed entry is counted in the
lifetime totals but dropped by window filtering. -/
def mixedRaw : RawProduct :=
  { price := 1000
  , stock_history := [.dict (some 0) (some 5) (some 0), .dict none (some 10) (some 0)] }

/-- A raw product whose only movement entry has an unparsable date. -/
def badDateRaw : RawProduct :=
  { price := 1000, stock_history := [.dict none (some 10) (some 0)] }

/-- A raw product with one entirely well-formed entry (day 3, sold 2,
restocked 4), for exercising the full-window equality. -/
def cleanRaw : RawProduct :=
  { price := 1500, stock_history := [.dict (some 3) (some 2) (some 4)] }

/-- A one-product frame whose only tier is "Thấp", used against the rollup. -/
def lowOnlyRows : List Row :=
  [{ price := 1000, total_sold := 5, revenue := 5000, total_stock_increased := 2
   , stock_revenue := 2000, stock_history := [], quantity_sold := 5
   , stock_remaining := 2, segment := .low }]

/-- A one-product frame with positive revenue and quantity in both modes. -/
def posRows : List Row :=
  [{ price := 1000, total_sold := 2, revenue := 2000, total_stock_increased := 3
   , stock_revenue := 3000, stock_history := [], quantity_sold := 2
   , stock_remaining := 3, segment := .medium }]

/-- A one-product frame with a movement on day 5, for the disjoint-window
witness. -/
def day5Rows : List Row :=
  [{ price := 1000, total_sold := 7, revenue := 7000, total_stock_increased := 1
   , stock_revenue := 1000, stock_history := [.dict (some 5) (some 7) (some 1)]
   , quantity_sold := 7, stock_remaining := 1, segment := .high }]

/-! Helper lemmas shared by the claim theorems. -/

theorem roundHalfEven_intCast (n : ℤ) : roundHalfEven (n : ℚ) = n := by
  unfold roundHalfEven
  rw [Int.floor_intCast]
  norm_num

theorem roundHalfEven_nonneg (x : ℚ) (hx : 0 ≤ x) : (0 : ℤ) ≤ roundHalfEven x := by
  unfold roundHalfEven
  have h : (0 : ℤ) ≤ ⌊x⌋ := Int.floor_nonneg.mpr hx
  split_ifs <;> omega

theorem entryContribSold_nonneg (e : RawEntry) : 0 ≤ entryContribSold e := by
  cases e <;> simp [entryContribSold]

theorem entryContribInc_nonneg (e : RawEntry) : 0 ≤ entryContribInc e := by
  cases e <;> simp [entryContribInc]

theorem pyEntrySold_nonneg (e : RawEntry) : 0 ≤ pyEntrySold e := by
  cases e <;> simp [pyEntrySold]

theorem pyEntryInc_nonneg (e : RawEntry) : 0 ≤ pyEntryInc e := by
  cases e <;> simp [pyEntryInc]

theorem pipelineTotalSold_nonneg (l : List RawEntry) : 0 ≤ pipelineTotalSold l := by
  refine List.sum_nonneg ?_
  intro x hx
  obtain ⟨e, _, rfl⟩ := List.mem_map.mp hx
  exact entryContribSold_nonneg e

theorem pipelineTotalInc_nonneg (l : List RawEntry) : 0 ≤ pipelineTotalInc l := by
  refine List.sum_nonneg ?_
  intro x hx
  obtain ⟨e, _, rfl⟩ := List.mem_map.mp hx
  exact entryContribInc_nonneg e

/-- C7: for every movement list — including lists containing negative
`stock_decreased` / `stock_increased` values — the lifetime sums computed by
the load pipeline and the window-recomputed `quantity_sold` /
`stock_remaining` of `recalculate_metrics` are all nonnegative, because
each entry contributes `max(0, value)`; the empty list yields 0. -/
theorem C7_totals_nonneg (l : List RawEntry) (p : RawProduct) (price : ℚ) :
    0 ≤ pipelineTotalSold l ∧ 0 ≤ pipelineTotalInc l ∧
    0 ≤ (load_row p).total_sold ∧ 0 ≤ (load_row p).total_stock_increased ∧
    0 ≤ (recalculate_metrics price l).quantity_sold ∧
    0 ≤ (recalculate_metrics price l).stock_remaining ∧
    pipelineTotalSold [] = 0 ∧ pipelineTotalInc [] = 0 ∧
    (recalculate_metrics price ([] : List RawEntry)).quantity_sold = 0 ∧
    (recalculate_metrics price ([] : List RawEntry)).stock_remaining = 0 := by
  refine ⟨pipelineTotalSold_nonneg l, pipelineTotalInc_nonneg l, ?_, ?_, ?_, ?_, rfl, rfl, rfl, rfl⟩
  · show (0 : ℚ) ≤ (roundHalfEven (max 0 (pipelineTotalSold (p.stock_history.take 100))) : ℚ)
    exact_mod_cast roundHalfEven_nonneg _ (le_max_left 0 _)
  · show (0 : ℚ) ≤ (roundHalfEven (max 0 (pipelineTotalInc (p.stock_history.take 100))) : ℚ)
    exact_mod_cast roundHalfEven_nonneg _ (le_max_left 0 _)
  · refine List.sum_nonneg ?_
    intro x hx
    obtain ⟨e, _, rfl⟩ := List.mem_map.mp hx
    exact pyEntrySold_nonneg e
  · refine List.sum_nonneg ?_
    intro x hx
    obtain ⟨e, _, rfl⟩ := List.mem_map.mp hx
    exact pyEntryInc_nonneg e

/-- C9: the stored movement list is exactly the first 50 entries of the
fetched list (itself capped at 100 entries by the `$slice`), hence its
length is at most 50; entries beyond the 50th of the fetched list are never
retained. -/
theorem C9_movement_cap (p : RawProduct) :
    (load_row p).stock_history = p.stock_history.take 50 ∧
    (load_row p).stock_history = (p.stock_history.take 100).take 50 ∧
    (load_row p).stock_history.length ≤ 50 ∧
    (p.stock_history.take 100).length ≤ 100 := by
  refine ⟨?_, rfl, List.length_take_le _ _, List.length_take_le _ _⟩
  show (p.stock_history.take 100).take 50 = p.stock_history.take 50
  rw [List.take_take]
  norm_num

/-- C10: the initial classification pass returns a copy of the frame in
which every row's `quantity_sold` equals its lifetime `total_sold` and
`stock_remaining` equals its lifetime `total_stock_increased`; an empty
input is returned unchanged. -/
theorem C10_initial_metrics (rows : List LoadedRow) :
    apply_clustering_improved ([] : List LoadedRow) = [] ∧
    (apply_clustering_improved rows).map (fun r => r.quantity_sold)
      = rows.map (fun r => r.total_sold) ∧
    (apply_clustering_improved rows).map (fun r => r.stock_remaining)
      = rows.map (fun r => r.total_stock_increased) := by
  refine ⟨rfl, ?_, ?_⟩ <;>
    cases rows with
    | nil => rfl
    | cons a l => simp [apply_clustering_improved, List.map_map, Function.comp]

/-- C2 (amended): the window-recomputation step itself never touches the
`segment` column — every row's tier survives `filter_by_date_range_optimized`
unchanged. (The tier that ends up displayed is nevertheless reassigned
afterwards by the module-level `categorize_price_segment` call on the
filtered frame; see the counterexample.) -/
theorem C2_window_preserves_segment (rows : List Row) (start_date end_date : Date) :
    (filter_by_date_range_optimized rows start_date end_date).map (fun r => r.segment)
      = rows.map (fun r => r.segment) := by
  cases rows with
  | nil => rfl
  | cons a l => simp [filter_by_date_range_optimized, List.map_map, Function.comp]

/-- C8: window recomputation over a range disjoint from all of a product's
movement dates, or with start after end, leaves every product with an empty
filtered movement list and all-zero recomputed metrics — and (being a total
function) never raises. -/
theorem C8_empty_window (rows : List Row) (start_date end_date : Date)
    (h : end_date < start_date ∨
      ∀ r ∈ rows, ∀ e ∈ r.stock_history, ∀ d, entryDate e = some d →
        d < start_date ∨ end_date < d) :
    ∀ r ∈ filter_by_date_range_optimized rows start_date end_date,
      r.stock_history = [] ∧ r.quantity_sold = 0 ∧ r.stock_remaining = 0 ∧
      r.revenue = 0 ∧ r.stock_revenue = 0 := by
  intro r hr
  cases rows with
  | nil => simp [filter_by_date_range_optimized] at hr
  | cons a l =>
    rw [filter_by_date_range_optimized] at hr
    obtain ⟨r0, hr0, rfl⟩ := List.mem_map.mp hr
    have hfe : filter_stock_history start_date end_date r0.stock_history = [] := by
      rw [filter_stock_history, List.filter_eq_nil_iff]
      intro e he
      cases hde : entryDate e with
      | none => simp [dateSelected, hde]
      | some d =>
        simp only [dateSelected, hde, Bool.and_eq_true, decide_eq_true_eq, not_and]
        intro h1 h2
        rcases h with hlt | hdisj
        · exact absurd (le_trans h1 h2) (not_le.mpr hlt)
        · rcases hdisj r0 hr0 e he d hde with hd | hd
          · exact absurd h1 (not_le.mpr hd)
          · exact absurd h2 (not_le.mpr hd)
    simp [hfe, recalculate_metrics, pyEntrySold, pyEntryInc]

theorem groupSum_partition (f : Row → ℚ) (rows : List Row) :
    groupSum f .high rows + groupSum f .undef rows + groupSum f .low rows + groupSum f .medium rows
      = (rows.map f).sum := by
  induction rows with
  | nil => simp [groupSum]
  | cons r rs ih =>
    rcases hseg : r.segment <;>
    · simp only [List.map_cons, List.sum_cons, ← ih]
      simp [groupSum, List.filter_cons, hseg]
      ring

theorem groupSum_absent (f : Row → ℚ) (s : Segment) (rows : List Row)
    (h : (rows.any fun r => r.segment == s) = false) : groupSum f s rows = 0 := by
  have hnil : (rows.filter fun r => r.segment == s) = [] := by
    rw [List.filter_eq_nil_iff]
    intro x hx
    have := List.any_eq_false.mp h x hx
    simpa using this
  rw [groupSum, hnil]
  rfl

theorem sum_filter_eq_sum (l : List Segment) (p : Segment → Bool) (g : Segment → ℚ)
    (h : ∀ s ∈ l, p s = false → g s = 0) :
    ((l.filter p).map g).sum = (l.map g).sum := by
  induction l with
  | nil => rfl
  | cons x l ih =>
    have ih' := ih fun s hs h' => h s (List.mem_cons_of_mem _ hs) h'
    by_cases hp : p x
    · simp [List.filter_cons, hp, ih']
    · have hx : g x = 0 := h x (List.mem_cons_self _ _) (by simpa using hp)
      simp [List.filter_cons, hp, ih', hx]

theorem sum_map_div_mul (g : Segment → ℚ) (l : List Segment) (T : ℚ) :
    (l.map fun s => g s / T * 100).sum = (l.map g).sum / T * 100 := by
  induction l with
  | nil => simp
  | cons x l ih =>
    simp only [List.map_cons, List.sum_cons, ih]
    ring

theorem presentTotal_eq (f : Row → ℚ) (rows : List Row) :
    ((presentSegments rows).map fun s => groupSum f s rows).sum = (rows.map f).sum := by
  rw [presentSegments, sum_filter_eq_sum]
  · have hp := groupSum_partition f rows
    simp only [segmentKeysSorted, List.map_cons, List.map_nil, List.sum_cons, List.sum_nil]
    linarith [hp]
  · intro s _ hfalse
    exact groupSum_absent f s rows hfalse

/-- C6: in the rollup output, `revenue_pct` values sum to exactly 100
whenever the total of the mode-selected revenue column is positive and are
each exactly 0 when that total is 0, and likewise for `quantity_pct` against
the quantity total — in both display modes, with no division-by-zero fault
(the division is guarded by the `total > 0` test). -/
theorem C6_percentages (rows : List Row) (display_mode : DisplayMode) :
    (0 < totalRevenueOf display_mode rows →
      ((calculate_segment_analysis rows display_mode).map fun st => st.revenue_pct).sum = 100) ∧
    (totalRevenueOf display_mode rows = 0 →
      ∀ st ∈ calculate_segment_analysis rows display_mode, st.revenue_pct = 0) ∧
    (0 < totalQuantityOf display_mode rows →
      ((calculate_segment_analysis rows display_mode).map fun st => st.quantity_pct).sum = 100) ∧
    (totalQuantityOf display_mode rows = 0 →
      ∀ st ∈ calculate_segment_analysis rows display_mode, st.quantity_pct = 0) := by
  cases rows with
  | nil =>
    refine ⟨?_, ?_, ?_, ?_⟩
    · intro h; exact absurd h (by simp [totalRevenueOf])
    · intro _ st hst; simp [calculate_segment_analysis] at hst
    · intro h; exact absurd h (by simp [totalQuantityOf])
    · intro _ st hst; simp [calculate_segment_analysis] at hst
  | cons a l =>
    have hrev : ((presentSegments (a :: l)).map fun s =>
        groupSum (revField display_mode) s (a :: l)).sum = totalRevenueOf display_mode (a :: l) :=
      presentTotal_eq _ _
    have hqty : ((presentSegments (a :: l)).map fun s =>
        groupSum (qtyField display_mode) s (a :: l)).sum = totalQuantityOf display_mode (a :: l) :=
      presentTotal_eq _ _
    refine ⟨?_, ?_, ?_, ?_⟩
    · intro hpos
      rw [calculate_segment_analysis]
      simp only [List.map_map, Function.comp_def]
      simp only [hrev, hqty, if_pos hpos]
      rw [sum_map_div_mul, hrev, div_self (ne_of_gt hpos)]
      norm_num
    · intro hzero st hst
      rw [calculate_segment_analysis] at hst
      simp only [List.mem_map] at hst
      obtain ⟨s, _, rfl⟩ := hst
      simp only [hrev, hqty, hzero]
      norm_num
    · intro hpos
      rw [calculate_segment_analysis]
      simp only [List.map_map, Function.comp_def]
      simp only [hrev, hqty, if_pos hpos]
      rw [sum_map_div_mul, hqty, div_self (ne_of_gt hpos)]
      norm_num
    · intro hzero st hst
      rw [calculate_segment_analysis] at hst
      simp only [List.mem_map] at hst
      obtain ⟨s, _, rfl⟩ := hst
      simp only [hrev, hqty, hzero]
      norm_num

/-- Witness for C6 at a concrete one-product frame with positive totals in
sales mode. -/
theorem C6_percentages_witness :
    0 < totalRevenueOf .sales posRows ∧ 0 < totalQuantityOf .sales posRows ∧
    ((calculate_segment_analysis posRows .sales).map fun st => st.revenue_pct).sum = 100 ∧
    ((calculate_segment_analysis posRows .sales).map fun st => st.quantity_pct).sum = 100 := by
  have hr : 0 < totalRevenueOf .sales posRows := by
    norm_num [totalRevenueOf, revField, posRows]
  have hq : 0 < totalQuantityOf .sales posRows := by
    norm_num [totalQuantityOf, qtyField, posRows]
  exact ⟨hr, hq, (C6_percentages posRows .sales).1 hr, (C6_percentages posRows .sales).2.2.1 hq⟩

theorem calc_map_segment (rows : List Row) (display_mode : DisplayMode) :
    (calculate_segment_analysis rows display_mode).map (fun st => st.segment)
      = presentSegments rows := by
  cases rows with
  | nil => simp [calculate_segment_analysis, presentSegments, segmentKeysSorted]
  | cons a l =>
    rw [calculate_segment_analysis]
    simp only [List.map_map, Function.comp_def]
    simp

/-- C3 (counterexample): a frame containing only "Thấp"-tier products makes
the final rollup return a single row, not the claimed three — no zero-valued
rows are synthesized for the absent tiers. -/
theorem C3_rollup_three_rows_cex :
    (calculate_segment_analysis lowOnlyRows .sales).length = 1 ∧
    (calculate_segment_analysis lowOnlyRows .sales).length ≠ 3 := by
  exact ⟨rfl, by decide⟩

/-- C3 (amended): the final rollup returns exactly one row per distinct tier
present in the input frame, with no duplicates and no synthesized rows for
absent tiers (rows appear in the `groupby` key order); an empty frame yields
an empty table. -/
theorem C3_rollup_rows_amended (rows : List Row) (display_mode : DisplayMode) :
    ((calculate_segment_analysis rows display_mode).map fun st => st.segment).Nodup ∧
    ∀ s : Segment, ((s ∈ (calculate_segment_analysis rows display_mode).map fun st => st.segment)
      ↔ s ∈ rows.map fun r => r.segment) := by
  rw [calc_map_segment]
  constructor
  · exact List.Nodup.filter _ (by decide)
  · intro s
    rw [presentSegments, List.mem_filter]
    constructor
    · rintro ⟨-, hany⟩
      obtain ⟨r, hr, hbeq⟩ := List.any_eq_true.mp hany
      exact List.mem_map.mpr ⟨r, hr, beq_iff_eq.mp hbeq⟩
    · intro hmem
      obtain ⟨r, hr, rfl⟩ := List.mem_map.mp hmem
      refine ⟨by cases r.segment <;> decide, ?_⟩
      exact List.any_eq_true.mpr ⟨r, hr, beq_self_eq_true _⟩

/-- Witness for C3 (amended) at the one-tier frame: its rollup's segment
column has no duplicates and contains the one present tier. -/
theorem C3_rollup_rows_amended_witness :
    ((calculate_segment_analysis lowOnlyRows .sales).map fun st => st.segment).Nodup ∧
    Segment.low ∈ (calculate_segment_analysis lowOnlyRows .sales).map fun st => st.segment := by
  refine ⟨(C3_rollup_rows_amended lowOnlyRows .sales).1, ?_⟩
  exact ((C3_rollup_rows_amended lowOnlyRows .sales).2 Segment.low).mpr (by decide)

/-- C4 (counterexample): a movement entry with an unparsable date is NOT
dropped from the stored movement list during normalization, and its
`stock_decreased` of 10 IS counted in the lifetime `total_sold` — the claim
that such entries are dropped at normalization time and contribute to no
computed metric fails on this record. -/
theorem C4_normalization_keeps_cex :
    (load_row badDateRaw).stock_history.length = 1 ∧
    (load_row badDateRaw).total_sold = 10 ∧ (10 : ℚ) ≠ 0 := by
  refine ⟨rfl, ?_, by norm_num⟩
  norm_num [load_row, badDateRaw, pipelineTotalSold, entryContribSold, roundHalfEven, List.take]

/-- C4 (amended): normalization keeps every entry of the 50-capped fetched
list, malformed or not (dropping nothing and raising nothing); the malformed
entries are instead dropped at window-filter time — the filtered history
retains exactly the dict entries whose date parses and lies in the window,
so malformed entries contribute to no windowed metric while the remaining
valid entries are still aggregated. -/
theorem C4_drop_at_filter_amended (p : RawProduct) (a b : Date) :
    (∀ e, e ∈ (load_row p).stock_history ↔ e ∈ p.stock_history.take 50) ∧
    (∀ e, e ∈ filter_stock_history a b ((load_row p).stock_history) ↔
      (e ∈ (load_row p).stock_history ∧ dateSelected a b e = true)) := by
  constructor
  · intro e
    have h : (load_row p).stock_history = p.stock_history.take 50 := by
      show (p.stock_history.take 100).take 50 = _
      rw [List.take_take]
      norm_num
    rw [h]
  · intro e
    rw [filter_stock_history, List.mem_filter]

/-- Witness for C4 (amended): the bad-dated entry is stored by
normalization yet absent from every filtered history. -/
theorem C4_drop_at_filter_amended_witness :
    (RawEntry.dict none (some 10) (some 0)) ∈ (load_row badDateRaw).stock_history ∧
    (RawEntry.dict none (some 10) (some 0)) ∉
      filter_stock_history 0 0 ((load_row badDateRaw).stock_history) := by
  constructor
  · exact ((C4_drop_at_filter_amended badDateRaw 0 0).1 _).mpr (by decide)
  · intro hmem
    have h := ((C4_drop_at_filter_amended badDateRaw 0 0).2 _).mp hmem
    exact absurd h.2 (by decide)

/-- C5: the superseding classifier's branch policy, exactly as implemented:
all-missing prices ↦ all "Không xác định"; distinct 0.25 / 0.75 quantiles ↦
`price ≤ p25` Low, `p25 < price ≤ p75` Medium, `price > p75` High; equal
quantiles with distinct min/max ↦ two-way split at the midpoint with no
Medium produced; equal quantiles with equal min/max (including a singleton
set) ↦ all "Trung bình". The function is total (one tier per input price,
never a failure). -/
theorem C5_classifier_branches (prices : List (Option ℚ)) :
    (classifyPrices prices).length = prices.length ∧
    ((∀ p ∈ prices, p = none) → ∀ s ∈ classifyPrices prices, s = Segment.undef) ∧
    (¬ (∀ p ∈ prices, p = none) →
      (quantile (1/4) (prices.filterMap id) ≠ quantile (3/4) (prices.filterMap id) →
        ∀ (i : Nat) (x : ℚ), prices[i]? = some (some x) →
          (classifyPrices prices)[i]? = some (
            if x ≤ quantile (1/4) (prices.filterMap id) then Segment.low
            else if x ≤ quantile (3/4) (prices.filterMap id) then Segment.medium
            else Segment.high)) ∧
      (quantile (1/4) (prices.filterMap id) = quantile (3/4) (prices.filterMap id) →
        listMin (prices.filterMap id) ≠ listMax (prices.filterMap id) →
          (∀ (i : Nat) (x : ℚ), prices[i]? = some (some x) →
            (classifyPrices prices)[i]? = some (
              if x < (listMin (prices.filterMap id) + listMax (prices.filterMap id)) / 2
              then Segment.low else Segment.high)) ∧
          Segment.medium ∉ classifyPrices prices) ∧
      (quantile (1/4) (prices.filterMap id) = quantile (3/4) (prices.filterMap id) →
        listMin (prices.filterMap id) = listMax (prices.filterMap id) →
        ∀ s ∈ classifyPrices prices, s = Segment.medium)) := by
  refine ⟨?_, ?_, ?_⟩
  · rw [classifyPrices]
    by_cases h1 : prices.all Option.isNone
    · rw [if_pos h1]; simp
    · rw [if_neg h1]
      by_cases h2 : quantile (1/4) (prices.filterMap id) = quantile (3/4) (prices.filterMap id)
      · rw [if_pos h2]
        by_cases h3 : listMin (prices.filterMap id) = listMax (prices.filterMap id)
        · rw [if_pos h3]; simp
        · rw [if_neg h3]; simp
      · rw [if_neg h2]; simp
  · intro h s hs
    have hall : prices.all Option.isNone = true := by
      rw [List.all_eq_true]
      intro p hp
      rw [Option.isNone_iff_eq_none]
      exact h p hp
    rw [classifyPrices, if_pos (by rw [hall])] at hs
    obtain ⟨p, _, rfl⟩ := List.mem_map.mp hs
    rfl
  · intro hnot
    have hall : ¬ (prices.all Option.isNone = true) := by
      intro hcon
      exact hnot fun p hp => Option.isNone_iff_eq_none.mp (List.all_eq_true.mp hcon p hp)
    refine ⟨?_, ?_, ?_⟩
    · intro hq i x hi
      rw [classifyPrices, if_neg hall, if_neg hq, List.getElem?_map, hi]
      rfl
    · intro hq hmm
      constructor
      · intro i x hi
        rw [classifyPrices, if_neg hall, if_pos hq, if_neg hmm, List.getElem?_map, hi]
        rfl
      · intro hmem
        rw [classifyPrices, if_neg hall, if_pos hq, if_neg hmm] at hmem
        obtain ⟨p, _, hf⟩ := List.mem_map.mp hmem
        cases p with
        | none =>
          dsimp only at hf
          exact absurd hf (by decide)
        | some x =>
          dsimp only at hf
          split at hf <;> exact absurd hf (by decide)
    · intro hq hmm s hs
      rw [classifyPrices, if_neg hall, if_pos hq, if_pos hmm] at hs
      obtain ⟨p, _, rfl⟩ := List.mem_map.mp hs
      rfl

/-- Witness for C5 at the all-identical-price set of two products priced 5:
the degenerate branch applies and both products are tagged "Trung bình". -/
theorem C5_classifier_branches_witness :
    ¬ (∀ p ∈ [some (5 : ℚ), some 5], p = none) ∧
    quantile (1/4) ([some (5 : ℚ), some 5].filterMap id)
      = quantile (3/4) ([some (5 : ℚ), some 5].filterMap id) ∧
    listMin ([some (5 : ℚ), some 5].filterMap id)
      = listMax ([some (5 : ℚ), some 5].filterMap id) ∧
    ∀ s ∈ classifyPrices [some (5 : ℚ), some 5], s = Segment.medium := by
  have hnot : ¬ (∀ p ∈ [some (5 : ℚ), some 5], p = none) := by
    intro h
    exact absurd (h (some 5) (List.mem_cons_self _ _)) (by decide)
  have hq : quantile (1/4) ([some (5 : ℚ), some 5].filterMap id)
      = quantile (3/4) ([some (5 : ℚ), some 5].filterMap id) := by
    norm_num [quantile, sortAsc, insertSorted, List.filterMap_cons]
  have hmm : listMin ([some (5 : ℚ), some 5].filterMap id)
      = listMax ([some (5 : ℚ), some 5].filterMap id) := by
    norm_num [listMin, listMax, List.filterMap_cons]
  exact ⟨hnot, hq, hmm,
    ((C5_classifier_branches [some (5 : ℚ), some 5]).2.2 hnot).2.2 hq hmm⟩

theorem pyEntrySold_eq_contrib (e : RawEntry) : pyEntrySold e = entryContribSold e := by
  cases e <;> simp [pyEntrySold, entryContribSold, max_comm]

theorem pyEntryInc_eq_contrib (e : RawEntry) : pyEntryInc e = entryContribInc e := by
  cases e <;> simp [pyEntryInc, entryContribInc, max_comm]

theorem sum_intCast (f : RawEntry → ℚ) (l : List RawEntry)
    (h : ∀ e ∈ l, ∃ n : ℤ, f e = (n : ℚ)) : ∃ N : ℤ, (l.map f).sum = (N : ℚ) := by
  induction l with
  | nil => exact ⟨0, by simp⟩
  | cons e l ih =>
    obtain ⟨n, hn⟩ := h e (List.mem_cons_self _ _)
    obtain ⟨N, hN⟩ := ih fun x hx => h x (List.mem_cons_of_mem _ hx)
    refine ⟨n + N, ?_⟩
    simp [hn, hN]

theorem pyEntrySold_int (e : RawEntry) (a b : Date) (h : entryOKB a b e = true) :
    ∃ n : ℤ, pyEntrySold e = (n : ℚ) := by
  cases e with
  | nonDict => simp [entryOKB] at h
  | dict od sd si =>
    cases od with
    | none => simp [entryOKB] at h
    | some d =>
      simp only [entryOKB, Bool.and_eq_true, decide_eq_true_eq] at h
      refine ⟨max 0 (sd.getD 0).num, ?_⟩
      have hv := (Rat.den_eq_one_iff _).mp h.1.2
      rw [pyEntrySold, ← hv]
      push_cast
      rfl

theorem pyEntryInc_int (e : RawEntry) (a b : Date) (h : entryOKB a b e = true) :
    ∃ n : ℤ, pyEntryInc e = (n : ℚ) := by
  cases e with
  | nonDict => simp [entryOKB] at h
  | dict od sd si =>
    cases od with
    | none => simp [entryOKB] at h
    | some d =>
      simp only [entryOKB, Bool.and_eq_true, decide_eq_true_eq] at h
      refine ⟨max 0 (si.getD 0).num, ?_⟩
      have hv := (Rat.den_eq_one_iff _).mp h.2
      rw [pyEntryInc, ← hv]
      push_cast
      rfl

theorem filter_full (a b : Date) (hist : List RawEntry)
    (hok : ∀ e ∈ hist, entryOKB a b e = true) :
    filter_stock_history a b hist = hist := by
  rw [filter_stock_history, List.filter_eq_self]
  intro e he
  have h := hok e he
  cases e with
  | nonDict => simp [entryOKB] at h
  | dict od sd si =>
    cases od with
    | none => simp [entryOKB] at h
    | some d =>
      simp only [entryOKB, Bool.and_eq_true, decide_eq_true_eq] at h
      simp [dateSelected, entryDate, h.1.1.1, h.1.1.2]

theorem windowed_metrics_eq (p : RawProduct) (a b : Date)
    (hlen : p.stock_history.length ≤ 50)
    (hok : ∀ e ∈ p.stock_history, entryOKB a b e = true) :
    (recalculate_metrics (load_row p).price
        (filter_stock_history a b ((load_row p).stock_history))).quantity_sold
      = (load_row p).total_sold ∧
    (recalculate_metrics (load_row p).price
        (filter_stock_history a b ((load_row p).stock_history))).stock_remaining
      = (load_row p).total_stock_increased ∧
    (recalculate_metrics (load_row p).price
        (filter_stock_history a b ((load_row p).stock_history))).revenue
      = (load_row p).revenue ∧
    (recalculate_metrics (load_row p).price
        (filter_stock_history a b ((load_row p).stock_history))).stock_revenue
      = (load_row p).stock_revenue := by
  have htake : p.stock_history.take 50 = p.stock_history := List.take_of_length_le hlen
  have hfetched : p.stock_history.take 100 = p.stock_history :=
    List.take_of_length_le (hlen.trans (by norm_num))
  have hfilter2 : filter_stock_history a b p.stock_history = p.stock_history :=
    filter_full a b _ hok
  have hSsold : (p.stock_history.map pyEntrySold).sum = pipelineTotalSold p.stock_history := by
    rw [pipelineTotalSold]
    exact congrArg List.sum (List.map_congr_left fun e _ => pyEntrySold_eq_contrib e)
  have hSinc : (p.stock_history.map pyEntryInc).sum = pipelineTotalInc p.stock_history := by
    rw [pipelineTotalInc]
    exact congrArg List.sum (List.map_congr_left fun e _ => pyEntryInc_eq_contrib e)
  obtain ⟨Ns, hNs⟩ := sum_intCast pyEntrySold p.stock_history
    (fun e he => pyEntrySold_int e a b (hok e he))
  obtain ⟨Ni, hNi⟩ := sum_intCast pyEntryInc p.stock_history
    (fun e he => pyEntryInc_int e a b (hok e he))
  have hcastS : pipelineTotalSold p.stock_history = (Ns : ℚ) := by rw [← hSsold, hNs]
  have hcastI : pipelineTotalInc p.stock_history = (Ni : ℚ) := by rw [← hSinc, hNi]
  have hmaxs : max 0 (pipelineTotalSold p.stock_history) = pipelineTotalSold p.stock_history :=
    max_eq_right (pipelineTotalSold_nonneg _)
  have hmaxi : max 0 (pipelineTotalInc p.stock_history) = pipelineTotalInc p.stock_history :=
    max_eq_right (pipelineTotalInc_nonneg _)
  simp only [recalculate_metrics, load_row, hfetched, htake, hfilter2, hmaxs, hmaxi]
  refine ⟨?_, ?_, ?_, ?_⟩
  · rw [hSsold, hcastS, roundHalfEven_intCast]
  · rw [hSinc, hcastI, roundHalfEven_intCast]
  · rw [hSsold, hcastS]
    rw [show ((max 1000 (roundHalfEven p.price) : ℤ) : ℚ) * (Ns : ℚ)
        = ((max 1000 (roundHalfEven p.price) * Ns : ℤ) : ℚ) by push_cast; ring]
    rw [roundHalfEven_intCast]
  · rw [hSinc, hcastI]
    rw [show ((max 1000 (roundHalfEven p.price) : ℤ) : ℚ) * (Ni : ℚ)
        = ((max 1000 (roundHalfEven p.price) * Ni : ℤ) : ℚ) by push_cast; ring]
    rw [roundHalfEven_intCast]

theorem pipeline_tuple (rows : List LoadedRow) (a b : Date) :
    (filter_by_date_range_optimized (apply_clustering_improved rows) a b).map
        (fun r => (r.quantity_sold, r.stock_remaining, r.revenue, r.stock_revenue))
      = rows.map (fun lr =>
          ((recalculate_metrics lr.price (filter_stock_history a b lr.stock_history)).quantity_sold,
           (recalculate_metrics lr.price (filter_stock_history a b lr.stock_history)).stock_remaining,
           (recalculate_metrics lr.price (filter_stock_history a b lr.stock_history)).revenue,
           (recalculate_metrics lr.price (filter_stock_history a b lr.stock_history)).stock_revenue)) := by
  cases rows with
  | nil => rfl
  | cons r rs =>
    simp only [apply_clustering_improved, filter_by_date_range_optimized, List.map_cons,
      List.map_map]
    rfl

/-- C1 (amended): the full-window recomputation agrees with the lifetime
totals for every product whose fetched movement list has at most 50 entries,
all of them dicts with a parsed date inside the window and integer stock
values. (Beyond 50 entries the lifetime sums count entries that storage
drops, and entries with unparsable dates count toward the lifetime sums but
are dropped by the window filter — see the counterexample.) -/
theorem C1_full_window_amended (ps : List RawProduct) (a b : Date)
    (h : ∀ p ∈ ps, p.stock_history.length ≤ 50 ∧
      ∀ e ∈ p.stock_history, entryOKB a b e = true) :
    (filter_by_date_range_optimized (apply_clustering_improved (load_data_optimized ps)) a b).map
        (fun r => (r.quantity_sold, r.stock_remaining, r.revenue, r.stock_revenue))
      = ps.map (fun p => ((load_row p).total_sold, (load_row p).total_stock_increased,
          (load_row p).revenue, (load_row p).stock_revenue)) := by
  rw [load_data_optimized, pipeline_tuple, List.map_map]
  refine List.map_congr_left ?_
  intro p hp
  obtain ⟨hlen, hok⟩ := h p hp
  obtain ⟨h1, h2, h3, h4⟩ := windowed_metrics_eq p a b hlen hok
  simp [Function.comp, h1, h2, h3, h4]

/-- Witness for C1 (amended) at a clean one-product collection fully covered
by the window [0, 9]. -/
theorem C1_full_window_amended_witness :
    (∀ p ∈ [cleanRaw], p.stock_history.length ≤ 50 ∧
      ∀ e ∈ p.stock_history, entryOKB 0 9 e = true) ∧
    (filter_by_date_range_optimized (apply_clustering_improved (load_data_optimized [cleanRaw])) 0 9).map
        (fun r => (r.quantity_sold, r.stock_remaining, r.revenue, r.stock_revenue))
      = [cleanRaw].map (fun p => ((load_row p).total_sold, (load_row p).total_stock_increased,
          (load_row p).revenue, (load_row p).stock_revenue)) := by
  have hh : ∀ p ∈ [cleanRaw], p.stock_history.length ≤ 50 ∧
      ∀ e ∈ p.stock_history, entryOKB 0 9 e = true := by decide
  exact ⟨hh, C1_full_window_amended [cleanRaw] 0 9 hh⟩

/-- C1 (counterexample): for the product `mixedRaw` the window [0, 0] covers
every parsed movement date, yet the recomputed `quantity_sold` is 5 while the
lifetime `total_sold` is 15 — the entry with the unparsable date counts
toward the lifetime total but is dropped by the window filter. -/
theorem C1_full_window_cex :
    (((load_row mixedRaw).stock_history).all (insideWindow 0 0) = true) ∧
    (filter_by_date_range_optimized (apply_clustering_improved [load_row mixedRaw]) 0 0).map
      (fun r => r.quantity_sold) = [5] ∧
    (load_row mixedRaw).total_sold = 15 ∧ (5 : ℚ) ≠ 15 := by
  refine ⟨?_, ?_, ?_, by norm_num⟩
  · norm_num [load_row, mixedRaw, List.take, insideWindow, entryDate]
  · norm_num [load_row, mixedRaw, pipelineTotalSold, pipelineTotalInc, entryContribSold,
      entryContribInc, roundHalfEven, List.take, apply_clustering_improved,
      filter_by_date_range_optimized, filter_stock_history, recalculate_metrics,
      dateSelected, entryDate, pyEntrySold, pyEntryInc, nuniquePrices]
  · norm_num [load_row, mixedRaw, pipelineTotalSold, entryContribSold, roundHalfEven,
      List.take, Int.floor_intCast]

theorem quantile33_five : quantile (33/100) [1000, 2000, 3000, 4000, 5000] = 2320 := by
  norm_num [quantile, sortAsc, insertSorted]
  try simp
  try norm_num

theorem quantile67_five : quantile (67/100) [1000, 2000, 3000, 4000, 5000] = 3680 := by
  norm_num [quantile, sortAsc, insertSorted]
  try simp
  try norm_num

theorem quantile25_five : quantile (1/4) [1000, 2000, 3000, 4000, 5000] = 2000 := by
  norm_num [quantile, sortAsc, insertSorted]
  try simp
  try norm_num

theorem quantile75_five : quantile (3/4) [1000, 2000, 3000, 4000, 5000] = 4000 := by
  norm_num [quantile, sortAsc, insertSorted]
  try simp
  try norm_num

theorem nunique_five : nuniquePrices [1000, 2000, 3000, 4000, 5000] = 5 := by
  norm_num [nuniquePrices, List.dedup_cons_of_not_mem]

/-- C2 (counterexample): on the five-product frame the lifetime pass (0.33 /
0.67 quantiles) tags the prices [1000..5000] as [Thấp, Thấp, Trung bình,
Cao, Cao], but after the (here trivial, full-window) date recomputation the
module-level `categorize_price_segment` call reassigns them from the 0.25 /
0.75 quantiles of the filtered rows to [Thấp, Thấp, Trung bình, Trung bình,
Cao]: the displayed tier of the 4000-priced product is *not* the one from
the lifetime pass, so tiers *are* recomputed from the filtered rows. -/
theorem C2_tier_recomputed_cex :
    (apply_clustering_improved fiveLoaded).map (fun r => r.segment)
      = [.low, .low, .medium, .high, .high] ∧
    (categorize_price_segment
        (filter_by_date_range_optimized (apply_clustering_improved fiveLoaded) 0 0)).map
      (fun r => r.segment) = [.low, .low, .medium, .medium, .high] ∧
    (categorize_price_segment
        (filter_by_date_range_optimized (apply_clustering_improved fiveLoaded) 0 0)).map
      (fun r => r.segment) ≠ (apply_clustering_improved fiveLoaded).map (fun r => r.segment) := by
  refine ⟨?_, ?_, ?_⟩
  · simp only [apply_clustering_improved, fiveLoaded, List.map_cons, List.map_nil,
      List.length_cons, List.length_nil]
    norm_num [nunique_five, quantile33_five, quantile67_five]
  · simp only [apply_clustering_improved, fiveLoaded, List.map_cons, List.map_nil,
      List.length_cons, List.length_nil]
    norm_num [nunique_five, quantile33_five, quantile67_five, filter_by_date_range_optimized,
      filter_stock_history, recalculate_metrics, categorize_price_segment, classifyPrices,
      setSegments, List.filterMap_cons, quantile25_five, quantile75_five]
  · intro hcon
    have h1 : (apply_clustering_improved fiveLoaded).map (fun r => r.segment)
        = [.low, .low, .medium, .high, .high] := by
      simp only [apply_clustering_improved, fiveLoaded, List.map_cons, List.map_nil,
        List.length_cons, List.length_nil]
      norm_num [nunique_five, quantile33_five, quantile67_five]
    have h2 : (categorize_price_segment
        (filter_by_date_range_optimized (apply_clustering_improved fiveLoaded) 0 0)).map
        (fun r => r.segment) = [.low, .low, .medium, .medium, .high] := by
      simp only [apply_clustering_improved, fiveLoaded, List.map_cons, List.map_nil,
        List.length_cons, List.length_nil]
      norm_num [nunique_five, quantile33_five, quantile67_five, filter_by_date_range_optimized,
        filter_stock_history, recalculate_metrics, categorize_price_segment, classifyPrices,
        setSegments, List.filterMap_cons, quantile25_five, quantile75_five]
    rw [h1, h2] at hcon
    exact absurd hcon (by decide)

/-- Witness for C8 at a start-after-end window over a one-product frame. -/
theorem C8_empty_window_witness :
    ((0 : Date) < 1) ∧
    ∀ r ∈ filter_by_date_range_optimized day5Rows 1 0,
      r.stock_history = [] ∧ r.quantity_sold = 0 ∧ r.stock_remaining = 0 ∧
      r.revenue = 0 ∧ r.stock_revenue = 0 := by
  exact ⟨by decide, C8_empty_window day5Rows 1 0 (Or.inl (by decide))⟩
